import Mathlib

/-!
# Verification of the GlacierDB elizaos adapter's resilience wrapper

Shallow embedding of the resilience layer of `GlacierDBDatabaseAdapter`
(retry-with-backoff `withRetry`, the composed executor `withDatabase`,
and the circuit breaker configured in the constructor), together with
the data-access details checked by the claims (`getMemories` count
clamping, `getCachedEmbeddings`).

The retry loop and the composition are translated from the adapter source;
the circuit breaker itself is implemented by the `DatabaseAdapter` base
class of the host runtime (not part of this repository's sources), so it
is modelled from the specification, as marked on each such definition.
-/

namespace GlacierAdapter

/-! ## Retry wrapper (`withRetry`)

Source: the retry loop of `GlacierDBDatabaseAdapter.withRetry`.  The
operation is modelled as a function from the 1-based attempt index to an
`Except` outcome, and the per-attempt random jitter (`Math.random() *
this.jitterMax`) as a function from the attempt index to a rational.
The result records, besides the outcome, the list of attempt indices at
which the operation was invoked, the list of backoff delays awaited (in
milliseconds, chronological order), and the "max retry attempts reached"
log annotation (last error and total attempt count) emitted on
exhaustion. -/

/-- Retry configuration: the four readonly fields of the adapter
(`maxRetries`, `baseDelay`, `maxDelay`, `jitterMax`), in milliseconds. -/
structure RetryConfig where
  maxRetries : Nat
  baseDelay : Nat
  maxDelay : Nat
  jitterMax : Nat
  deriving Repr, DecidableEq

/-- The adapter's retry configuration:
`maxRetries = 3`, `baseDelay = 1000`, `maxDelay = 10000`, `jitterMax = 1000`. -/
def glacierRetryConfig : RetryConfig :=
  { maxRetries := 3, baseDelay := 1000, maxDelay := 10000, jitterMax := 1000 }

/-- The capped exponential backoff
`Math.min(baseDelay * Math.pow(2, attempt - 1), maxDelay)`. -/
def backoffDelay (cfg : RetryConfig) (attempt : Nat) : Nat :=
  min (cfg.baseDelay * 2 ^ (attempt - 1)) cfg.maxDelay

/-- Observable result of one `withRetry` invocation: the final outcome,
the attempt indices at which the operation ran, the delays awaited
between attempts, and the exhaustion log annotation
`(last error, totalAttempts)` when all attempts failed. -/
structure RetryResult (E A : Type) where
  outcome : Except E A
  calls : List Nat
  delays : List ℚ
  exhaustLog : Option (E × Nat)
  deriving Repr

/-- One pass of the `for (let attempt = 1; attempt <= this.maxRetries; ...)`
loop body of `withRetry`, with `fuel` the number of loop iterations left
(`maxRetries - attempt + 1` at every reachable call) and `lastError` the
`lastError` variable.  `fuel = 0` is the fall-through `throw lastError`
after the loop. -/
def retryGo (cfg : RetryConfig) (op : Nat → Except E A) (jitter : Nat → ℚ) :
    Nat → Nat → E → RetryResult E A
  | 0, _, lastError => ⟨.error lastError, [], [], none⟩
  | fuel + 1, attempt, _ =>
    match op attempt with
    | .ok a => ⟨.ok a, [attempt], [], none⟩
    | .error e =>
      if attempt < cfg.maxRetries then
        let d : ℚ := (backoffDelay cfg attempt : ℚ) + jitter attempt
        let r := retryGo cfg op jitter fuel (attempt + 1) e
        ⟨r.outcome, attempt :: r.calls, d :: r.delays, r.exhaustLog⟩
      else
        ⟨.error e, [attempt], [], some (e, attempt)⟩

/-- `withRetry(operation)`: run the loop from attempt 1 with
`lastError = new Error("Unknown error")` (here the parameter
`unknownError`). -/
def withRetry (cfg : RetryConfig) (unknownError : E) (op : Nat → Except E A)
    (jitter : Nat → ℚ) : RetryResult E A :=
  retryGo cfg op jitter cfg.maxRetries 1 unknownError

/-! ## Circuit breaker

Modelled from the spec: the circuit breaker behind `withCircuitBreaker`
is implemented by the `DatabaseAdapter` base class of `@elizaos/core`,
which is not among this repository's sources; only its configuration
(`failureThreshold: 5`, `resetTimeout: 60000`, `halfOpenMaxAttempts: 3`)
appears in the adapter constructor.  The state machine below follows
spec §4.1 verbatim: CLOSED / OPEN / HALF_OPEN with consecutive-failure
counting, reset timeout, and half-open trial successes. -/

/-- Breaker configuration recognized by the spec:
`failureThreshold`, `resetTimeout` (ms), `halfOpenMaxAttempts`. -/
structure BreakerConfig where
  failureThreshold : Nat
  resetTimeout : Nat
  halfOpenMaxAttempts : Nat
  deriving Repr, DecidableEq

/-- The configuration passed to `super` in the adapter constructor. -/
def glacierBreakerConfig : BreakerConfig :=
  { failureThreshold := 5, resetTimeout := 60000, halfOpenMaxAttempts := 3 }

/-- The three breaker states. -/
inductive BreakerState
  | closed
  | openState
  | halfOpen
  deriving Repr, DecidableEq

/-- Modelled from the spec: breaker state per §3 — the state tag, the
consecutive failure count, the timestamp (ms) of the last transition
into OPEN, and the count of successful trial calls made while
HALF_OPEN. -/
structure CircuitBreaker where
  state : BreakerState
  failureCount : Nat
  lastTransition : Nat
  halfOpenSuccesses : Nat
  deriving Repr, DecidableEq

/-- Errors visible to callers of the executor: the distinguished
circuit-open error, or a propagated dependency error (after retries the
last underlying error, i.e. the spec's RetryExhaustedError payload). -/
inductive CircuitError (E : Type)
  | circuitOpen
  | dependency (e : E)
  deriving Repr, DecidableEq

/-- Result of one `execute` call: the outcome, the new breaker state and
how many times the wrapped operation was invoked (0 or 1). -/
structure ExecResult (E A : Type) where
  outcome : Except (CircuitError E) A
  breaker : CircuitBreaker
  opCalls : Nat
  deriving Repr

/-- Modelled from the spec: the HALF_OPEN branch of `execute` (§4.1) —
run the operation; on success increment the trial-success count and
close (resetting the failure count) once it reaches
`halfOpenMaxAttempts`; on failure reopen immediately, resetting the
OPEN timer to `now`. -/
def halfOpenStep (cfg : BreakerConfig) (now : Nat) (cb : CircuitBreaker)
    (op : Except E A) : ExecResult E A :=
  match op with
  | .ok a =>
    let s := cb.halfOpenSuccesses + 1
    if s ≥ cfg.halfOpenMaxAttempts then
      ⟨.ok a,
        { state := .closed, failureCount := 0,
          lastTransition := cb.lastTransition, halfOpenSuccesses := 0 }, 1⟩
    else
      ⟨.ok a, { cb with state := .halfOpen, halfOpenSuccesses := s }, 1⟩
  | .error e =>
    ⟨.error (.dependency e),
      { state := .openState, failureCount := cb.failureCount,
        lastTransition := now, halfOpenSuccesses := 0 }, 1⟩

/-- Modelled from the spec: `execute(operation)` per §4.1.  CLOSED runs
the operation, resetting the failure count on success and incrementing
it on failure, opening when the count reaches `failureThreshold`.  OPEN
fails fast with the circuit-open error before `resetTimeout` has
elapsed, and otherwise transitions to HALF_OPEN and proceeds as such. -/
def CircuitBreaker.execute (cfg : BreakerConfig) (now : Nat)
    (cb : CircuitBreaker) (op : Except E A) : ExecResult E A :=
  match cb.state with
  | .closed =>
    match op with
    | .ok a => ⟨.ok a, { cb with failureCount := 0 }, 1⟩
    | .error e =>
      let fc := cb.failureCount + 1
      if fc ≥ cfg.failureThreshold then
        ⟨.error (.dependency e),
          { state := .openState, failureCount := fc,
            lastTransition := now, halfOpenSuccesses := 0 }, 1⟩
      else
        ⟨.error (.dependency e), { cb with failureCount := fc }, 1⟩
  | .openState =>
    if now - cb.lastTransition < cfg.resetTimeout then
      ⟨.error .circuitOpen, cb, 0⟩
    else
      halfOpenStep cfg now
        { cb with state := .halfOpen, halfOpenSuccesses := 0 } op
  | .halfOpen => halfOpenStep cfg now cb op

/-- A breaker that has never seen a failure: CLOSED, zero counts. -/
def freshBreaker (t : Nat) : CircuitBreaker :=
  { state := .closed, failureCount := 0, lastTransition := t,
    halfOpenSuccesses := 0 }

/-! ## Composed executor (`withDatabase`)

Source: `withDatabase(operation, context)` returns
`withCircuitBreaker(async () => withRetry(operation), context)` — the
breaker wraps the whole retry loop, and its single data point is the
retry loop's final outcome.  The second component of the result counts
invocations of the wrapped dependency operation: zero when the breaker
sheds the call (the thunk never runs), otherwise the retry loop's
attempt count. -/

/-- The composed executor `withDatabase`: circuit breaker around the
full retry loop.  `context` is the free-text diagnostic label and does
not affect behavior. -/
def withDatabase (cfgB : BreakerConfig) (cfgR : RetryConfig) (now : Nat)
    (cb : CircuitBreaker) (unknownError : E) (op : Nat → Except E A)
    (jitter : Nat → ℚ) (context : String) : ExecResult E A × Nat :=
  let r := withRetry cfgR unknownError op jitter
  let ex := CircuitBreaker.execute cfgB now cb r.outcome
  (ex, ex.opCalls * r.calls.length)

/-! ## `getMemories` count clamping

Source: inside `getMemories`, `if (params.count > 20) { params.count = 20; }`
followed by `.find(query).sort({ createdAt: -1 }).limit(params.count).toArray()`
and a map that parses each memory's `content` field.  The external
store's sorted matching rows are an abstract list and `limit(n)` takes
its first `n` elements. -/

/-- The count clamp of `getMemories`. -/
def clampCount (count : Nat) : Nat :=
  if count > 20 then 20 else count

/-- The query body of `getMemories` (the operation passed to
`withDatabase`): limit the store's sorted matching rows by the clamped
count and parse each row's content. -/
def getMemoriesOp (rows : List M) (parseContent : M → M) (count : Nat) :
    List M :=
  (rows.take (clampCount count)).map parseContent

/-! ## `getCachedEmbeddings` -/

/-- The options record taken by `getCachedEmbeddings`. -/
structure CachedEmbeddingsOpts where
  query_table_name : String
  query_threshold : ℚ
  query_input : String
  query_field_name : String
  query_field_sub_name : String
  query_match_count : Nat
  deriving Repr

/-- A row of the `getCachedEmbeddings` result type. -/
structure CachedEmbeddingRow where
  embedding : List ℚ
  levenshtein_score : ℚ
  deriving Repr

/-- `getCachedEmbeddings(_opts)`: the body is `return [];` — it never
calls `withDatabase`, so the breaker state passes through untouched and
no dependency call, retry, or breaker interaction occurs.  The result
carries the returned list, the (unchanged) breaker, and the number of
dependency calls performed. -/
def getCachedEmbeddings (_opts : CachedEmbeddingsOpts)
    (cb : CircuitBreaker) : List CachedEmbeddingRow × CircuitBreaker × Nat :=
  ([], cb, 0)

/-! ## Retry loop lemmas -/

/-- The jitter-annotated backoff delay awaited after a failed attempt. -/
def attemptDelay (cfg : RetryConfig) (jitter : Nat → ℚ) (attempt : Nat) : ℚ :=
  (backoffDelay cfg attempt : ℚ) + jitter attempt

/-- The breaker state after `n` consecutive failed calls (each raising
the dependency error `e`), all made at time `now`. -/
def iterateFailures (cfg : BreakerConfig) (now : Nat) (e : E) :
    Nat → CircuitBreaker → CircuitBreaker
  | 0, cb => cb
  | n + 1, cb =>
    iterateFailures cfg now e n
      (CircuitBreaker.execute (A := Unit) cfg now cb (.error e)).breaker

/-- The breaker state after `n` consecutive successful calls (each
returning `a`), all made at time `now`. -/
def iterateSuccesses (cfg : BreakerConfig) (now : Nat) (a : A) :
    Nat → CircuitBreaker → CircuitBreaker
  | 0, cb => cb
  | n + 1, cb =>
    iterateSuccesses cfg now a n
      (CircuitBreaker.execute (E := Unit) cfg now cb (.ok a)).breaker

/-- If every attempt from `attempt` up to `maxRetries` fails, the loop
runs exactly those attempts, waits between consecutive ones, propagates
the final attempt's error and logs it with the total attempt count. -/
theorem retryGo_all_fail (cfg : RetryConfig) (op : Nat → Except E A)
    (jitter : Nat → ℚ) (errf : Nat → E) :
    ∀ fuel attempt le, attempt + fuel = cfg.maxRetries + 1 →
      attempt ≤ cfg.maxRetries →
      (∀ k, attempt ≤ k → k ≤ cfg.maxRetries → op k = .error (errf k)) →
      retryGo cfg op jitter fuel attempt le =
        ⟨.error (errf cfg.maxRetries), List.range' attempt fuel,
          (List.range' attempt (fuel - 1)).map (attemptDelay cfg jitter),
          some (errf cfg.maxRetries, cfg.maxRetries)⟩ := by
  intro fuel
  induction fuel with
  | zero => intro attempt le hinv hle _; exfalso; omega
  | succ fuel ih =>
    intro attempt le hinv hle hop
    have hopa : op attempt = .error (errf attempt) := hop attempt le_rfl hle
    by_cases hlt : attempt < cfg.maxRetries
    · have hfuel : 1 ≤ fuel := by omega
      simp only [retryGo, hopa, if_pos hlt]
      rw [ih (attempt + 1) (errf attempt) (by omega) (by omega)
        (fun k hk1 hk2 => hop k (by omega) hk2)]
      obtain ⟨f, rfl⟩ : ∃ f, fuel = f + 1 := ⟨fuel - 1, by omega⟩
      simp [List.range'_succ, attemptDelay]
    · have hfe : fuel = 0 := by omega
      have ha : attempt = cfg.maxRetries := by omega
      subst hfe; subst ha
      simp [retryGo, hopa, hlt]

/-- If attempts `attempt .. k - 1` fail and attempt `k` succeeds, the
loop returns the attempt-`k` result after exactly the calls
`attempt .. k` and the delays following attempts `attempt .. k - 1`. -/
theorem retryGo_succeeds_at (cfg : RetryConfig) (op : Nat → Except E A)
    (jitter : Nat → ℚ) (errf : Nat → E) (a : A) :
    ∀ fuel attempt le k, attempt + fuel = cfg.maxRetries + 1 →
      attempt ≤ k → k ≤ cfg.maxRetries →
      (∀ j, attempt ≤ j → j < k → op j = .error (errf j)) →
      op k = .ok a →
      retryGo cfg op jitter fuel attempt le =
        ⟨.ok a, List.range' attempt (k - attempt + 1),
          (List.range' attempt (k - attempt)).map (attemptDelay cfg jitter),
          none⟩ := by
  intro fuel
  induction fuel with
  | zero => intro attempt le k hinv hk1 hk2 _ _; exfalso; omega
  | succ fuel ih =>
    intro attempt le k hinv hk1 hk2 hfail hok
    by_cases hka : k = attempt
    · subst hka
      simp [retryGo, hok]
    · have hlt : attempt < k := by omega
      have hopa : op attempt = .error (errf attempt) := hfail attempt le_rfl hlt
      have hmr : attempt < cfg.maxRetries := by omega
      simp only [retryGo, hopa, if_pos hmr]
      rw [ih (attempt + 1) (errf attempt) k (by omega) (by omega) hk2
        (fun j hj1 hj2 => hfail j (by omega) hj2) hok]
      obtain ⟨d, hd⟩ : ∃ d, k - attempt = d + 1 := ⟨k - attempt - 1, by omega⟩
      have hd' : k - (attempt + 1) = d := by omega
      simp [hd, hd', List.range'_succ, attemptDelay]

/-- A successful outcome of the retry loop is a value the operation
returned at one of the attempted indices. -/
theorem retryGo_ok_provenance (cfg : RetryConfig) (op : Nat → Except E A)
    (jitter : Nat → ℚ) :
    ∀ fuel attempt le a,
      (retryGo cfg op jitter fuel attempt le).outcome = .ok a →
      ∃ k, attempt ≤ k ∧ k < attempt + fuel ∧ op k = .ok a := by
  intro fuel
  induction fuel with
  | zero => intro attempt le a h; simp [retryGo] at h
  | succ fuel ih =>
    intro attempt le a h
    rcases hop : op attempt with e | v
    · by_cases hlt : attempt < cfg.maxRetries
      · simp only [retryGo, hop, if_pos hlt] at h
        obtain ⟨k, hk1, hk2, hk3⟩ := ih (attempt + 1) e a h
        exact ⟨k, by omega, by omega, hk3⟩
      · simp only [retryGo, hop, if_neg hlt] at h
        simp at h
    · simp only [retryGo, hop] at h
      simp at h
      exact ⟨attempt, le_rfl, by omega, by rw [hop, h]⟩

/-- A failing outcome of the retry loop is either the initial
`"Unknown error"` placeholder (only when no attempt ran) or an error the
operation raised at one of the attempted indices. -/
theorem retryGo_error_provenance (cfg : RetryConfig) (op : Nat → Except E A)
    (jitter : Nat → ℚ) :
    ∀ fuel attempt le e,
      (retryGo cfg op jitter fuel attempt le).outcome = .error e →
      (fuel = 0 ∧ e = le) ∨
        ∃ k, attempt ≤ k ∧ k < attempt + fuel ∧ op k = .error e := by
  intro fuel
  induction fuel with
  | zero =>
    intro attempt le e h
    simp [retryGo] at h
    exact Or.inl ⟨rfl, h.symm⟩
  | succ fuel ih =>
    intro attempt le e h
    rcases hop : op attempt with e' | v
    · by_cases hlt : attempt < cfg.maxRetries
      · simp only [retryGo, hop, if_pos hlt] at h
        rcases ih (attempt + 1) e' e h with ⟨_, rfl⟩ | ⟨k, hk1, hk2, hk3⟩
        · exact Or.inr ⟨attempt, le_rfl, by omega, hop⟩
        · exact Or.inr ⟨k, by omega, by omega, hk3⟩
      · simp only [retryGo, hop, if_neg hlt] at h
        simp at h
        exact Or.inr ⟨attempt, le_rfl, by omega, by rw [hop, h]⟩
    · simp only [retryGo, hop] at h
      simp at h

/-! ## Claim theorems -/

/-- C1.  For every operation that fails on all `maxRetries` attempts
(`maxRetries ≥ 1`), `withRetry` invokes the operation at exactly the
attempts `1 .. maxRetries` — no attempt after `maxRetries` — and
propagates the last underlying error annotated (in the exhaustion log)
with the total attempt count `maxRetries`. -/
theorem claim_C1_retry_exhaustion (cfg : RetryConfig) (u : E)
    (op : Nat → Except E A) (jitter : Nat → ℚ) (errf : Nat → E)
    (hmr : 1 ≤ cfg.maxRetries)
    (hfail : ∀ k, 1 ≤ k → k ≤ cfg.maxRetries → op k = .error (errf k)) :
    (withRetry cfg u op jitter).outcome = .error (errf cfg.maxRetries) ∧
    (withRetry cfg u op jitter).exhaustLog =
      some (errf cfg.maxRetries, cfg.maxRetries) ∧
    (withRetry cfg u op jitter).calls = List.range' 1 cfg.maxRetries ∧
    ∀ j ∈ (withRetry cfg u op jitter).calls, j ≤ cfg.maxRetries := by
  have h := retryGo_all_fail cfg op jitter errf cfg.maxRetries 1 u
    (by omega) hmr (fun k hk1 hk2 => hfail k hk1 hk2)
  unfold withRetry
  rw [h]
  refine ⟨rfl, rfl, rfl, ?_⟩
  intro j hj
  simp [List.mem_range'_1] at hj
  omega

/-- Witness for C1 at the adapter's configuration (`maxRetries = 3`)
with an operation failing on every attempt `k` with error `k`. -/
theorem claim_C1_witness :
    (withRetry glacierRetryConfig 0
      (fun k => (Except.error k : Except Nat Nat))
      (fun _ => 0)).outcome = Except.error 3 ∧
    (withRetry glacierRetryConfig 0
      (fun k => (Except.error k : Except Nat Nat))
      (fun _ => 0)).exhaustLog = some (3, 3) := by
  have h := claim_C1_retry_exhaustion glacierRetryConfig 0
    (fun k => (Except.error k : Except Nat Nat)) (fun _ => 0) (fun k => k)
    (by decide) (fun k _ _ => rfl)
  exact ⟨h.1, h.2.1⟩

/-- C2.  In a run that fails on attempts `1 .. k-1` and succeeds at
attempt `k ≤ maxRetries`, the delay after each failed attempt `j` is
`min(baseDelay * 2^(j-1), maxDelay) + jitter j`, so it lies in
`[backoff(j), backoff(j) + jitterMax)` when the jitter does in
`[0, jitterMax)`; at the adapter's configuration with `k = 3` the run
returns the attempt-3 result after exactly two delays, the first in
`[1000, 2000)` and the second in `[2000, 3000)`. -/
theorem claim_C2_backoff_delays (cfg : RetryConfig) (u : E)
    (op : Nat → Except E A) (jitter : Nat → ℚ) (errf : Nat → E)
    (k : Nat) (a : A) (hk1 : 1 ≤ k) (hk2 : k ≤ cfg.maxRetries)
    (hfail : ∀ j, 1 ≤ j → j < k → op j = .error (errf j))
    (hok : op k = .ok a)
    (hjit : ∀ j, 0 ≤ jitter j ∧ jitter j < (cfg.jitterMax : ℚ)) :
    (withRetry cfg u op jitter).outcome = .ok a ∧
    (withRetry cfg u op jitter).calls = List.range' 1 k ∧
    (withRetry cfg u op jitter).delays =
      (List.range' 1 (k - 1)).map (attemptDelay cfg jitter) ∧
    (∀ j, 1 ≤ j → j < k →
      (backoffDelay cfg j : ℚ) ≤ attemptDelay cfg jitter j ∧
      attemptDelay cfg jitter j <
        (backoffDelay cfg j : ℚ) + (cfg.jitterMax : ℚ)) ∧
    (cfg = glacierRetryConfig → k = 3 →
      ∃ d1 d2, (withRetry cfg u op jitter).delays = [d1, d2] ∧
        (1000 : ℚ) ≤ d1 ∧ d1 < 2000 ∧ (2000 : ℚ) ≤ d2 ∧ d2 < 3000) := by
  have h := retryGo_succeeds_at cfg op jitter errf a cfg.maxRetries 1 u k
    (by omega) hk1 hk2 (fun j hj1 hj2 => hfail j hj1 hj2) hok
  unfold withRetry
  rw [h]
  have hk : k - 1 + 1 = k := by omega
  refine ⟨rfl, by rw [hk], rfl, ?_, ?_⟩
  · intro j _ _
    have hj := hjit j
    unfold attemptDelay
    constructor <;> linarith [hj.1, hj.2]
  · intro hcfg hk3
    subst hcfg; subst hk3
    refine ⟨attemptDelay glacierRetryConfig jitter 1,
      attemptDelay glacierRetryConfig jitter 2, by simp [List.range'], ?_⟩
    have h1 := hjit 1
    have h2 := hjit 2
    have e1 : (backoffDelay glacierRetryConfig 1 : ℚ) = 1000 := by
      norm_num [backoffDelay, glacierRetryConfig]
    have e2 : (backoffDelay glacierRetryConfig 2 : ℚ) = 2000 := by
      norm_num [backoffDelay, glacierRetryConfig]
    have ej : (glacierRetryConfig.jitterMax : ℚ) = 1000 := by
      norm_num [glacierRetryConfig]
    unfold attemptDelay
    rw [e1, e2]
    rw [ej] at h1 h2
    refine ⟨by linarith [h1.1], by linarith [h1.2],
      by linarith [h2.1], by linarith [h2.2]⟩

/-- Witness for C2: at the adapter's configuration, an operation failing
on attempts 1 and 2 with jitter fixed at 500 succeeds at attempt 3 with
delays 1500 and 2500. -/
theorem claim_C2_witness :
    (withRetry glacierRetryConfig 0
      (fun k => if k = 3 then (Except.ok 42 : Except Nat Nat)
        else Except.error k) (fun _ => (500 : ℚ))).outcome =
        Except.ok 42 ∧
    ∃ d1 d2,
      (withRetry glacierRetryConfig 0
        (fun k => if k = 3 then (Except.ok 42 : Except Nat Nat)
          else Except.error k) (fun _ => (500 : ℚ))).delays = [d1, d2] ∧
      (1000 : ℚ) ≤ d1 ∧ d1 < 2000 ∧ (2000 : ℚ) ≤ d2 ∧ d2 < 3000 := by
  have h := claim_C2_backoff_delays glacierRetryConfig 0
    (fun k => if k = 3 then (Except.ok 42 : Except Nat Nat)
      else Except.error k) (fun _ => (500 : ℚ)) (fun j => j) 3 42
    (by norm_num) (by norm_num [glacierRetryConfig])
    (fun j hj1 hj2 => by
      have hne : j ≠ 3 := by omega
      simp [hne])
    (by norm_num)
    (fun j => ⟨by norm_num, by norm_num [glacierRetryConfig]⟩)
  exact ⟨h.1, h.2.2.2.2 rfl rfl⟩

/-- C7.  If the operation succeeds at attempt `k` (after failures on the
earlier attempts), `withRetry` returns that result immediately: the
calls are exactly `1 .. k` (none after `k`) and no exhaustion is
logged.  In particular an operation succeeding at attempt 1 is invoked
exactly once with zero delays, and running it through the composed
executor from a fresh CLOSED breaker returns its result and leaves the
breaker still CLOSED with failure count 0. -/
theorem claim_C7_immediate_success (cfg : RetryConfig) (u : E)
    (op : Nat → Except E A) (jitter : Nat → ℚ) (errf : Nat → E)
    (k : Nat) (a : A) (hk1 : 1 ≤ k) (hk2 : k ≤ cfg.maxRetries)
    (hfail : ∀ j, 1 ≤ j → j < k → op j = .error (errf j))
    (hok : op k = .ok a) :
    (withRetry cfg u op jitter).outcome = .ok a ∧
    (withRetry cfg u op jitter).calls = List.range' 1 k ∧
    (withRetry cfg u op jitter).exhaustLog = none ∧
    (∀ j ∈ (withRetry cfg u op jitter).calls, j ≤ k) ∧
    (k = 1 →
      (withRetry cfg u op jitter).calls = [1] ∧
      (withRetry cfg u op jitter).delays = [] ∧
      ∀ cfgB now t context,
        withDatabase cfgB cfg now (freshBreaker t) u op jitter context =
          (⟨.ok a, freshBreaker t, 1⟩, 1)) := by
  have h := retryGo_succeeds_at cfg op jitter errf a cfg.maxRetries 1 u k
    (by omega) hk1 hk2 (fun j hj1 hj2 => hfail j hj1 hj2) hok
  have hk : k - 1 + 1 = k := by omega
  have hcalls : (withRetry cfg u op jitter).calls = List.range' 1 k := by
    unfold withRetry; rw [h, hk]
  have hout : (withRetry cfg u op jitter).outcome = .ok a := by
    unfold withRetry; rw [h]
  refine ⟨hout, hcalls, by unfold withRetry; rw [h], ?_, ?_⟩
  · intro j hj
    rw [hcalls] at hj
    simp [List.mem_range'_1] at hj
    omega
  · intro hk1'
    subst hk1'
    refine ⟨by rw [hcalls]; simp, by unfold withRetry; rw [h]; simp, ?_⟩
    intro cfgB now t context
    simp only [withDatabase]
    rw [hout, hcalls]
    simp [CircuitBreaker.execute, freshBreaker]

/-- Witness for C7: an operation returning 5 on every attempt, run
through the composed executor at the adapter's configurations from a
fresh breaker, yields 5, one call, and an unchanged breaker. -/
theorem claim_C7_witness :
    (withRetry glacierRetryConfig 0
      (fun _ => (Except.ok 5 : Except Nat Nat)) (fun _ => 0)).calls =
      [1] ∧
    withDatabase glacierBreakerConfig glacierRetryConfig 7
      (freshBreaker 0) 0 (fun _ => (Except.ok 5 : Except Nat Nat))
      (fun _ => 0) "getMemories" =
      (⟨Except.ok 5, freshBreaker 0, 1⟩, 1) := by
  have h := claim_C7_immediate_success glacierRetryConfig 0
    (fun _ => (Except.ok 5 : Except Nat Nat)) (fun _ => 0) (fun j => 0)
    1 5 (by norm_num) (by norm_num [glacierRetryConfig])
    (fun j hj1 hj2 => by omega) rfl
  have h5 := h.2.2.2.2 rfl
  exact ⟨h5.1, h5.2.2 glacierBreakerConfig 7 0 "getMemories"⟩

/-! ## Circuit breaker lemmas -/

/-- The HALF_OPEN branch always invokes the operation exactly once. -/
theorem halfOpenStep_opCalls (cfg : BreakerConfig) (now : Nat)
    (cb : CircuitBreaker) (op : Except E A) :
    (halfOpenStep cfg now cb op).opCalls = 1 := by
  rcases op with e | a
  · rfl
  · simp only [halfOpenStep]
    split_ifs <;> rfl

/-- While the consecutive failure count stays below the threshold, a
CLOSED breaker absorbs failed calls by counting them, staying CLOSED. -/
theorem iterateFailures_closed (cfg : BreakerConfig) (now : Nat) (e : E)
    (t0 : Nat) :
    ∀ n c, c + n < cfg.failureThreshold →
      iterateFailures cfg now e n ⟨.closed, c, t0, 0⟩ =
        ⟨.closed, c + n, t0, 0⟩ := by
  intro n
  induction n with
  | zero => intro c h; simp [iterateFailures]
  | succ n ih =>
    intro c h
    have hlt : ¬ c + 1 ≥ cfg.failureThreshold := by omega
    simp only [iterateFailures, CircuitBreaker.execute]
    rw [if_neg hlt]
    rw [ih (c + 1) (by omega)]
    simp only [CircuitBreaker.mk.injEq, and_true, true_and]
    omega

/-- The failed call that brings the consecutive failure count to the
threshold transitions a CLOSED breaker to OPEN, recording the time. -/
theorem iterateFailures_trips (cfg : BreakerConfig) (now : Nat) (e : E)
    (t0 : Nat) :
    ∀ n c, c + n = cfg.failureThreshold → 1 ≤ n →
      iterateFailures cfg now e n ⟨.closed, c, t0, 0⟩ =
        ⟨.openState, cfg.failureThreshold, now, 0⟩ := by
  intro n
  induction n with
  | zero => intro c h h1; exact absurd h1 (by omega)
  | succ n ih =>
    intro c h h1
    by_cases hn : n = 0
    · subst hn
      have hge : c + 1 ≥ cfg.failureThreshold := by omega
      simp only [iterateFailures, CircuitBreaker.execute]
      rw [if_pos hge]
      simp only [iterateFailures, CircuitBreaker.mk.injEq, and_true,
        true_and]
      omega
    · have hlt : ¬ c + 1 ≥ cfg.failureThreshold := by omega
      simp only [iterateFailures, CircuitBreaker.execute]
      rw [if_neg hlt]
      exact ih (c + 1) (by omega) (by omega)

/-- While the trial-success count stays below `halfOpenMaxAttempts`, a
HALF_OPEN breaker counts successful trials and stays HALF_OPEN. -/
theorem iterateSuccesses_halfOpen (cfg : BreakerConfig) (now : Nat)
    (a : A) (fc t : Nat) :
    ∀ n s, s + n < cfg.halfOpenMaxAttempts →
      iterateSuccesses cfg now a n ⟨.halfOpen, fc, t, s⟩ =
        ⟨.halfOpen, fc, t, s + n⟩ := by
  intro n
  induction n with
  | zero => intro s h; simp [iterateSuccesses]
  | succ n ih =>
    intro s h
    have hlt : ¬ s + 1 ≥ cfg.halfOpenMaxAttempts := by omega
    simp only [iterateSuccesses, CircuitBreaker.execute, halfOpenStep]
    rw [if_neg hlt]
    rw [ih (s + 1) (by omega)]
    simp only [CircuitBreaker.mk.injEq, and_true, true_and]
    omega

/-- The trial success that brings the trial-success count to
`halfOpenMaxAttempts` closes the breaker and resets the failure count. -/
theorem iterateSuccesses_closes (cfg : BreakerConfig) (now : Nat)
    (a : A) (fc t : Nat) :
    ∀ n s, s + n = cfg.halfOpenMaxAttempts → 1 ≤ n →
      iterateSuccesses cfg now a n ⟨.halfOpen, fc, t, s⟩ =
        ⟨.closed, 0, t, 0⟩ := by
  intro n
  induction n with
  | zero => intro s h h1; exact absurd h1 (by omega)
  | succ n ih =>
    intro s h h1
    by_cases hn : n = 0
    · subst hn
      have hge : s + 1 ≥ cfg.halfOpenMaxAttempts := by omega
      simp only [iterateSuccesses, CircuitBreaker.execute, halfOpenStep]
      rw [if_pos hge]
    · have hlt : ¬ s + 1 ≥ cfg.halfOpenMaxAttempts := by omega
      simp only [iterateSuccesses, CircuitBreaker.execute, halfOpenStep]
      rw [if_neg hlt]
      exact ih (s + 1) (by omega) (by omega)

/-- C4.  Starting CLOSED with failure count 0, after `j < F` consecutive
failed calls the breaker is still CLOSED with count `j`; the `F`-th
failure transitions it to OPEN (exactly when the count reaches the
threshold `F`), and the next call — made while the reset timeout has
not elapsed — fails immediately with the circuit-open error without
invoking the wrapped operation. -/
theorem claim_C4_opens_at_threshold (cfg : BreakerConfig) (e : E)
    (t0 now now2 : Nat) (op : Except E A)
    (hF : 1 ≤ cfg.failureThreshold)
    (hT : now2 - now < cfg.resetTimeout) :
    (∀ j, j < cfg.failureThreshold →
      iterateFailures cfg now e j (freshBreaker t0) =
        ⟨.closed, j, t0, 0⟩) ∧
    iterateFailures cfg now e cfg.failureThreshold (freshBreaker t0) =
      ⟨.openState, cfg.failureThreshold, now, 0⟩ ∧
    CircuitBreaker.execute cfg now2
      (iterateFailures cfg now e cfg.failureThreshold (freshBreaker t0))
      op =
      ⟨.error .circuitOpen,
        iterateFailures cfg now e cfg.failureThreshold (freshBreaker t0),
        0⟩ := by
  have hfb : freshBreaker t0 =
      (⟨.closed, 0, t0, 0⟩ : CircuitBreaker) := rfl
  have htrip := iterateFailures_trips cfg now e t0 cfg.failureThreshold 0
    (by omega) hF
  rw [hfb]
  refine ⟨?_, htrip, ?_⟩
  · intro j hj
    have h := iterateFailures_closed cfg now e t0 j 0 (by omega)
    simpa using h
  · rw [htrip]
    simp only [CircuitBreaker.execute]
    rw [if_pos hT]

/-- Witness for C4 at the adapter's breaker configuration
(`failureThreshold = 5`): five consecutive failures at time 100 open
the breaker, and a call at time 200 is shed without invoking the
operation. -/
theorem claim_C4_witness :
    iterateFailures glacierBreakerConfig 100 (7 : Nat) 5
      (freshBreaker 0) = ⟨.openState, 5, 100, 0⟩ ∧
    CircuitBreaker.execute glacierBreakerConfig 200
      (iterateFailures glacierBreakerConfig 100 (7 : Nat) 5
        (freshBreaker 0)) (Except.ok 1 : Except Nat Nat) =
      ⟨.error .circuitOpen,
        iterateFailures glacierBreakerConfig 100 (7 : Nat) 5
          (freshBreaker 0), 0⟩ := by
  have h := claim_C4_opens_at_threshold glacierBreakerConfig (7 : Nat)
    0 100 200 (Except.ok 1 : Except Nat Nat) (by decide) (by decide)
  exact ⟨h.2.1, h.2.2⟩

/-- C5.  While the breaker is OPEN: a call before `resetTimeout`
milliseconds have elapsed since entering OPEN fails with the
circuit-open error, leaves the breaker unchanged and never invokes the
operation; a call at or after the timeout proceeds as from HALF_OPEN
(with the trial-success count reset) and invokes the operation exactly
once. -/
theorem claim_C5_open_timeout (cfg : BreakerConfig) (cb : CircuitBreaker)
    (op : Except E A) (now2 : Nat) (hst : cb.state = .openState) :
    (now2 - cb.lastTransition < cfg.resetTimeout →
      CircuitBreaker.execute cfg now2 cb op =
        ⟨.error .circuitOpen, cb, 0⟩) ∧
    (cfg.resetTimeout ≤ now2 - cb.lastTransition →
      CircuitBreaker.execute cfg now2 cb op =
        halfOpenStep cfg now2
          { cb with state := .halfOpen, halfOpenSuccesses := 0 } op ∧
      (CircuitBreaker.execute cfg now2 cb op).opCalls = 1) := by
  obtain ⟨st, fc, lt, hs⟩ := cb
  simp only at hst
  subst hst
  constructor
  · intro h
    simp only [CircuitBreaker.execute]
    rw [if_pos h]
  · intro h
    have hn : ¬ now2 - lt < cfg.resetTimeout := by
      simp only at h ⊢; omega
    have he : CircuitBreaker.execute cfg now2
        ⟨.openState, fc, lt, hs⟩ op =
        halfOpenStep cfg now2 ⟨.halfOpen, fc, lt, 0⟩ op := by
      simp only [CircuitBreaker.execute]
      rw [if_neg hn]
    exact ⟨he, by rw [he]; exact halfOpenStep_opCalls cfg now2 _ op⟩

/-- Witness for C5 at the adapter's breaker configuration
(`resetTimeout = 60000`): from an OPEN breaker entered at time 1000, a
call at time 2000 is shed with the operation not invoked, and a call at
time 61000 runs as a half-open trial invoking the operation once. -/
theorem claim_C5_witness :
    CircuitBreaker.execute glacierBreakerConfig 2000
      (⟨.openState, 5, 1000, 0⟩ : CircuitBreaker)
      (Except.ok 9 : Except Nat Nat) =
      ⟨.error .circuitOpen, ⟨.openState, 5, 1000, 0⟩, 0⟩ ∧
    (CircuitBreaker.execute glacierBreakerConfig 61000
      (⟨.openState, 5, 1000, 0⟩ : CircuitBreaker)
      (Except.ok 9 : Except Nat Nat)).opCalls = 1 := by
  have h1 := (claim_C5_open_timeout glacierBreakerConfig
    ⟨.openState, 5, 1000, 0⟩ (Except.ok 9 : Except Nat Nat) 2000
    rfl).1 (by decide)
  have h2 := (claim_C5_open_timeout glacierBreakerConfig
    ⟨.openState, 5, 1000, 0⟩ (Except.ok 9 : Except Nat Nat) 61000
    rfl).2 (by decide)
  exact ⟨h1, h2.2⟩

/-- C6.  From HALF_OPEN with trial-success count 0: each of the first
`halfOpenMaxAttempts - 1` consecutive successful trials leaves the
breaker HALF_OPEN with the count incremented; the success reaching
`halfOpenMaxAttempts` transitions it to CLOSED with the failure count
reset to zero; and any single failure during HALF_OPEN transitions the
breaker to OPEN immediately with the OPEN timer reset to the time of
the failing call. -/
theorem claim_C6_half_open_trials (cfg : BreakerConfig) (a : A)
    (fc t now : Nat) (hM : 1 ≤ cfg.halfOpenMaxAttempts) :
    (∀ j, j < cfg.halfOpenMaxAttempts →
      iterateSuccesses cfg now a j ⟨.halfOpen, fc, t, 0⟩ =
        ⟨.halfOpen, fc, t, j⟩) ∧
    iterateSuccesses cfg now a cfg.halfOpenMaxAttempts
      ⟨.halfOpen, fc, t, 0⟩ = ⟨.closed, 0, t, 0⟩ ∧
    (∀ (e : E) s now2,
      CircuitBreaker.execute cfg now2 ⟨.halfOpen, fc, t, s⟩
        (.error e : Except E A) =
        ⟨.error (.dependency e), ⟨.openState, fc, now2, 0⟩, 1⟩) := by
  refine ⟨?_, ?_, ?_⟩
  · intro j hj
    have h := iterateSuccesses_halfOpen cfg now a fc t j 0 (by omega)
    simpa using h
  · exact iterateSuccesses_closes cfg now a fc t
      cfg.halfOpenMaxAttempts 0 (by omega) hM
  · intro e s now2
    rfl

/-- Witness for C6 at the adapter's breaker configuration
(`halfOpenMaxAttempts = 3`): three consecutive successful trials close
the breaker with the failure count reset, and a failing trial reopens
it with the timer set to the failing call's time. -/
theorem claim_C6_witness :
    iterateSuccesses glacierBreakerConfig 60 (9 : Nat) 3
      (⟨.halfOpen, 2, 50, 0⟩ : CircuitBreaker) = ⟨.closed, 0, 50, 0⟩ ∧
    CircuitBreaker.execute glacierBreakerConfig 99
      (⟨.halfOpen, 2, 50, 1⟩ : CircuitBreaker)
      (Except.error (4 : Nat) : Except Nat Nat) =
      ⟨.error (.dependency 4), ⟨.openState, 2, 99, 0⟩, 1⟩ := by
  have h := claim_C6_half_open_trials (E := Nat) glacierBreakerConfig
    (9 : Nat) 2 50 60 (by decide)
  exact ⟨h.2.1, h.2.2 4 1 99⟩

/-! ## Composed executor lemmas -/

/-- `execute` invokes the wrapped operation at most once per call. -/
theorem execute_opCalls_le_one (cfg : BreakerConfig) (now : Nat)
    (cb : CircuitBreaker) (op : Except E A) :
    (CircuitBreaker.execute cfg now cb op).opCalls ≤ 1 := by
  obtain ⟨st, fc, lt, hs⟩ := cb
  cases st with
  | closed => rcases op with e | a
              · simp only [CircuitBreaker.execute]
                split_ifs <;> exact le_refl 1
              · exact le_refl 1
  | openState =>
      simp only [CircuitBreaker.execute]
      split_ifs with h
      · exact Nat.zero_le 1
      · rw [halfOpenStep_opCalls]
  | halfOpen =>
      simp only [CircuitBreaker.execute]
      rw [halfOpenStep_opCalls]

/-- A successful `execute` outcome is the wrapped operation's own
successful outcome. -/
theorem execute_outcome_ok (cfg : BreakerConfig) (now : Nat)
    (cb : CircuitBreaker) (op : Except E A) (a : A)
    (h : (CircuitBreaker.execute cfg now cb op).outcome = .ok a) :
    op = .ok a := by
  obtain ⟨st, fc, lt, hs⟩ := cb
  cases st with
  | closed =>
      rcases op with e | v
      · simp only [CircuitBreaker.execute] at h
        split_ifs at h
      · simp only [CircuitBreaker.execute] at h
        simp at h
        rw [h]
  | openState =>
      simp only [CircuitBreaker.execute] at h
      split_ifs at h with hlt
      rcases op with e | v
      · simp [halfOpenStep] at h
      · simp only [halfOpenStep] at h
        split_ifs at h <;> simp at h <;> rw [h]
  | halfOpen =>
      rcases op with e | v
      · simp [CircuitBreaker.execute, halfOpenStep] at h
      · simp only [CircuitBreaker.execute, halfOpenStep] at h
        split_ifs at h <;> simp at h <;> rw [h]

/-- A failing `execute` outcome is either the circuit-open error or a
dependency error the wrapped operation itself raised. -/
theorem execute_outcome_error (cfg : BreakerConfig) (now : Nat)
    (cb : CircuitBreaker) (op : Except E A) (err : CircuitError E)
    (h : (CircuitBreaker.execute cfg now cb op).outcome = .error err) :
    err = .circuitOpen ∨ ∃ e, err = .dependency e ∧ op = .error e := by
  obtain ⟨st, fc, lt, hs⟩ := cb
  cases st with
  | closed =>
      rcases op with e | v
      · simp only [CircuitBreaker.execute] at h
        split_ifs at h <;> simp at h <;>
          exact Or.inr ⟨e, h.symm, rfl⟩
      · simp [CircuitBreaker.execute] at h
  | openState =>
      simp only [CircuitBreaker.execute] at h
      split_ifs at h with hlt
      · simp at h
        exact Or.inl h.symm
      · rcases op with e | v
        · simp [halfOpenStep] at h
          exact Or.inr ⟨e, h.symm, rfl⟩
        · simp only [halfOpenStep] at h
          split_ifs at h
  | halfOpen =>
      rcases op with e | v
      · simp [CircuitBreaker.execute, halfOpenStep] at h
        exact Or.inr ⟨e, h.symm, rfl⟩
      · simp only [CircuitBreaker.execute, halfOpenStep] at h
        split_ifs at h

/-- C3.  The composed executor is the circuit breaker wrapped around the
whole retry loop, for every diagnostic context label: the breaker gates
entry (an OPEN breaker before its timeout sheds the call with zero
dependency invocations), the breaker sees at most one data point per
call, and from CLOSED the breaker's update depends only on the retry
loop's final outcome — a final success resets the failure count no
matter how many attempts failed inside the loop, and a final failure
counts as exactly one failure. -/
theorem claim_C3_breaker_around_retry (cfgB : BreakerConfig)
    (cfgR : RetryConfig) (now : Nat) (cb : CircuitBreaker) (u : E)
    (op : Nat → Except E A) (jitter : Nat → ℚ) (context : String) :
    withDatabase cfgB cfgR now cb u op jitter context =
      (CircuitBreaker.execute cfgB now cb
          (withRetry cfgR u op jitter).outcome,
        (CircuitBreaker.execute cfgB now cb
            (withRetry cfgR u op jitter).outcome).opCalls *
          (withRetry cfgR u op jitter).calls.length) ∧
    (withDatabase cfgB cfgR now cb u op jitter context).1.opCalls ≤ 1 ∧
    (cb.state = .openState →
      now - cb.lastTransition < cfgB.resetTimeout →
      (withDatabase cfgB cfgR now cb u op jitter context).1.outcome =
        .error .circuitOpen ∧
      (withDatabase cfgB cfgR now cb u op jitter context).2 = 0) ∧
    (cb.state = .closed →
      (∀ a, (withRetry cfgR u op jitter).outcome = .ok a →
        (withDatabase cfgB cfgR now cb u op jitter context).1.breaker =
          { cb with failureCount := 0 }) ∧
      (∀ e, (withRetry cfgR u op jitter).outcome = .error e →
        (withDatabase cfgB cfgR now cb u op jitter
          context).1.outcome = .error (.dependency e) ∧
        (withDatabase cfgB cfgR now cb u op jitter
          context).1.breaker.failureCount = cb.failureCount + 1)) := by
  refine ⟨rfl, execute_opCalls_le_one cfgB now cb _, ?_, ?_⟩
  · intro hst hlt
    obtain ⟨st, fc, lt, hs⟩ := cb
    simp only at hst
    subst hst
    simp only at hlt
    simp only [withDatabase, CircuitBreaker.execute]
    rw [if_pos hlt]
    exact ⟨rfl, by simp⟩
  · intro hst
    obtain ⟨st, fc, lt, hs⟩ := cb
    simp only at hst
    subst hst
    constructor
    · intro a ha
      simp only [withDatabase, CircuitBreaker.execute]
      rw [ha]
    · intro e he
      simp only [withDatabase, CircuitBreaker.execute]
      rw [he]
      simp only
      split_ifs <;> exact ⟨rfl, rfl⟩

/-- Witness for C3: from a CLOSED breaker with failure count 2, an
operation that fails at attempt 1 and succeeds at attempt 2 yields a
single success data point, resetting the failure count to 0; and from
an OPEN breaker before its timeout the call is shed with zero
dependency invocations. -/
theorem claim_C3_witness :
    (withDatabase glacierBreakerConfig glacierRetryConfig 10
      (⟨.closed, 2, 0, 0⟩ : CircuitBreaker) 0
      (fun k => if k = 1 then (Except.error 8 : Except Nat Nat)
        else Except.ok 3) (fun _ => 0) "query").1.breaker =
      ⟨.closed, 0, 0, 0⟩ ∧
    (withDatabase glacierBreakerConfig glacierRetryConfig 10
      (⟨.openState, 5, 9, 0⟩ : CircuitBreaker) 0
      (fun k => if k = 1 then (Except.error 8 : Except Nat Nat)
        else Except.ok 3) (fun _ => 0) "query").2 = 0 := by
  have hro : (withRetry glacierRetryConfig 0
      (fun k => if k = 1 then (Except.error 8 : Except Nat Nat)
        else Except.ok 3) (fun _ => 0)).outcome = .ok 3 := by
    have h := retryGo_succeeds_at glacierRetryConfig
      (fun k => if k = 1 then (Except.error 8 : Except Nat Nat)
        else Except.ok 3) (fun _ => 0) (fun _ => 8) 3 3 1 0 2
      (by decide) (by decide) (by decide)
      (fun j hj1 hj2 => by
        have hj : j = 1 := by omega
        simp [hj]) (by norm_num)
    have hmr : glacierRetryConfig.maxRetries = 3 := rfl
    unfold withRetry
    rw [hmr, h]
  have h1 := (claim_C3_breaker_around_retry glacierBreakerConfig
    glacierRetryConfig 10 ⟨.closed, 2, 0, 0⟩ 0
    (fun k => if k = 1 then (Except.error 8 : Except Nat Nat)
      else Except.ok 3) (fun _ => 0) "query").2.2.2 rfl
  have h2 := (claim_C3_breaker_around_retry glacierBreakerConfig
    glacierRetryConfig 10 ⟨.openState, 5, 9, 0⟩ 0
    (fun k => if k = 1 then (Except.error 8 : Except Nat Nat)
      else Except.ok 3) (fun _ => 0) "query").2.2.1 rfl (by decide)
  exact ⟨h1.1 3 hro, h2.2⟩

/-- C8.  The composed executor never swallows a failure silently: a
successful result is a value the operation itself returned at one of
its attempts; a failing result is either the circuit-open error or a
dependency error (the retries-exhausted case propagates the last
underlying error, and the placeholder error occurs only with a zero
retry budget); and every call's outcome is one of these — never a
default or empty value invented by the executor. -/
theorem claim_C8_error_propagation (cfgB : BreakerConfig)
    (cfgR : RetryConfig) (now : Nat) (cb : CircuitBreaker) (u : E)
    (op : Nat → Except E A) (jitter : Nat → ℚ) (context : String) :
    (∀ a, (withDatabase cfgB cfgR now cb u op jitter
        context).1.outcome = .ok a →
      ∃ k, 1 ≤ k ∧ k ≤ cfgR.maxRetries ∧ op k = .ok a) ∧
    (∀ err, (withDatabase cfgB cfgR now cb u op jitter
        context).1.outcome = .error err →
      err = .circuitOpen ∨
      ∃ e, err = .dependency e ∧
        ((cfgR.maxRetries = 0 ∧ e = u) ∨
          ∃ k, 1 ≤ k ∧ k ≤ cfgR.maxRetries ∧ op k = .error e)) ∧
    ((∃ a, (withDatabase cfgB cfgR now cb u op jitter
        context).1.outcome = .ok a) ∨
      ∃ err, (withDatabase cfgB cfgR now cb u op jitter
        context).1.outcome = .error err) := by
  refine ⟨?_, ?_, ?_⟩
  · intro a ha
    have hex : (CircuitBreaker.execute cfgB now cb
        (withRetry cfgR u op jitter).outcome).outcome = .ok a := ha
    have hro := execute_outcome_ok cfgB now cb _ a hex
    obtain ⟨k, hk1, hk2, hk3⟩ :=
      retryGo_ok_provenance cfgR op jitter cfgR.maxRetries 1 u a hro
    exact ⟨k, hk1, by omega, hk3⟩
  · intro err herr
    have hex : (CircuitBreaker.execute cfgB now cb
        (withRetry cfgR u op jitter).outcome).outcome = .error err :=
      herr
    rcases execute_outcome_error cfgB now cb _ err hex with h | ⟨e, he, hop⟩
    · exact Or.inl h
    · rcases retryGo_error_provenance cfgR op jitter cfgR.maxRetries 1 u
        e hop with ⟨hf0, rfl⟩ | ⟨k, hk1, hk2, hk3⟩
      · exact Or.inr ⟨e, he, Or.inl ⟨hf0, rfl⟩⟩
      · exact Or.inr ⟨e, he, Or.inr ⟨k, hk1, by omega, hk3⟩⟩
  · rcases hout : (withDatabase cfgB cfgR now cb u op jitter
        context).1.outcome with e | a
    · exact Or.inr ⟨e, rfl⟩
    · exact Or.inl ⟨a, rfl⟩

/-- Witness for C8: an operation failing with error 7 on every attempt,
run from a fresh breaker, surfaces as a dependency error whose payload
the operation itself raised. -/
theorem claim_C8_witness :
    (withDatabase glacierBreakerConfig glacierRetryConfig 0
      (freshBreaker 0) 0 (fun _ => (Except.error 7 : Except Nat Nat))
      (fun _ => 0) "log").1.outcome =
      Except.error (CircuitError.dependency 7) ∧
    ((glacierRetryConfig.maxRetries = 0 ∧ (7 : Nat) = 0) ∨
      ∃ k, 1 ≤ k ∧ k ≤ glacierRetryConfig.maxRetries ∧
        (fun _ => (Except.error 7 : Except Nat Nat)) k =
          Except.error 7) := by
  have hout : (withDatabase glacierBreakerConfig glacierRetryConfig 0
      (freshBreaker 0) 0 (fun _ => (Except.error 7 : Except Nat Nat))
      (fun _ => 0) "log").1.outcome =
      Except.error (CircuitError.dependency 7) := by rfl
  have h := (claim_C8_error_propagation glacierBreakerConfig
    glacierRetryConfig 0 (freshBreaker 0) 0
    (fun _ => (Except.error 7 : Except Nat Nat)) (fun _ => 0)
    "log").2.1 (CircuitError.dependency 7) hout
  rcases h with h | ⟨e, he, hp⟩
  · exact absurd h (by decide)
  · injection he with h'
    subst h'
    exact ⟨hout, hp⟩

/-- C9.  `getMemories` clamps any requested count above 20 down to 20
before using it as the query limit, so the query body never returns
more than 20 records whatever count is requested. -/
theorem claim_C9_memories_capped (rows : List M) (parseContent : M → M)
    (count : Nat) :
    (20 < count → clampCount count = 20) ∧
    (getMemoriesOp rows parseContent count).length ≤ 20 := by
  have h1 : clampCount count ≤ 20 := by
    unfold clampCount
    split_ifs with h <;> omega
  constructor
  · intro h
    simp [clampCount, h]
  · simp only [getMemoriesOp, List.length_map, List.length_take]
    exact le_trans (Nat.min_le_left _ _) h1

/-- Witness for C9: requesting 25 memories from a 30-row store yields
the clamp value 20 and at most 20 records. -/
theorem claim_C9_witness :
    clampCount 25 = 20 ∧
    (getMemoriesOp (List.range 30) (fun m => m) 25).length ≤ 20 := by
  have h := claim_C9_memories_capped (List.range 30) (fun m => m) 25
  exact ⟨h.1 (by decide), h.2⟩

/-- C10.  `getCachedEmbeddings` returns the empty list on every input,
leaving the breaker untouched and performing no dependency call (and
hence no retry or circuit-breaker interaction). -/
theorem claim_C10_cached_embeddings_empty (opts : CachedEmbeddingsOpts)
    (cb : CircuitBreaker) :
    getCachedEmbeddings opts cb = ([], cb, 0) := rfl

end GlacierAdapter
